import Mathlib

/-!
Verification of the qb-cloud-sync core against its specification.

The development shallowly embeds the task processor of
`src/core/task-processor.service.ts` (the latest revision contained in the
repository, the one defining `calculateRemoteRelativePath`,
`processTasks`, `handleTask`, `executeUploadStep` and
`executeVerificationStep`), the uploader of `src/core/uploader.service.ts`,
and the data model of `prisma/schema.prisma`.

Conventions of the embedding:
* JavaScript strings are Lean `String`s; the JavaScript string operations
  used by the code (`split`, `trim`, `toLowerCase`, `replace` with a global
  literal pattern, the `(\d{4})` year regex, `path.join`, `path.basename`)
  are reimplemented below on `List Char` so that they compute by kernel
  reduction.  Lowercasing is `Char.toLower` (the code only compares ASCII
  rule data).
* The one genuinely external string capability, `new RegExp(p, 'i').test n`
  for a rule's `name_matches` field, is a parameter `regexTest` of the
  resolver; an invalid regular expression (the `catch` branch of the code)
  is modelled by `regexTest` returning `false`, which is exactly how the
  code treats it (the rule field simply does not match).
* Database rows are plain structures; `prisma.torrentTask.update` calls are
  explicit functional updates; timestamps are integers (milliseconds).
* External process invocations (`rclone`, `fs.stat`) are oracle values or
  oracle functions supplied as parameters.
-/

namespace QbCloudSync

/-! ### JavaScript string primitives, on `List Char` -/

/-- Test whether `p` is a prefix of `s` (used to locate literal pattern
occurrences, as JavaScript `String.prototype.replace` with a global literal
regex does). -/
def isPre : List Char → List Char → Bool
  | [], _ => true
  | _ :: _, [] => false
  | p :: ps, c :: cs => p == c && isPre ps cs

/-- Expansion of a JavaScript replacement string at one match
(`GetSubstitution` of the ECMAScript specification, for a regex with no
capture groups): `$$` yields a literal dollar, `$&` the matched substring,
`` $` `` (dollar + backquote, written `\x60`) the portion of the original
subject before the match, `$'` (dollar + quote, written `\x27`) the
portion after the match; any other dollar sequence — a lone `$`, `$` at
the end, `$n` with no such capture group, `$<` with no named groups — is
kept literally. -/
def expandReplacement (matched before after : List Char) : List Char → List Char
  | [] => []
  | '$' :: '$' :: rest => '$' :: expandReplacement matched before after rest
  | '$' :: '&' :: rest => matched ++ expandReplacement matched before after rest
  | '$' :: '\x60' :: rest => before ++ expandReplacement matched before after rest
  | '$' :: '\x27' :: rest => after ++ expandReplacement matched before after rest
  | c :: rest => c :: expandReplacement matched before after rest

/-- Replace every non-overlapping occurrence of the non-empty pattern
`p :: ps` in the subject, scanning left to right and continuing after each
replacement, exactly as JavaScript `s.replace(/pat/g, rep)` does for a
literal pattern: at each match the replacement string is expanded with
`expandReplacement` (the matched substring is the literal pattern itself,
and the before/after portions are taken from the original subject `orig`
at the match's absolute position `pos`).  The `fuel` argument only makes
the recursion structural (each step consumes at least one subject
character, so any `fuel ≥ subject length` computes the full scan). -/
def replaceAllAux (p : Char) (ps rep orig : List Char) : Nat → Nat → List Char → List Char
  | _, _, [] => []
  | 0, _, s => s
  | fuel + 1, pos, c :: rest =>
    if isPre (p :: ps) (c :: rest) then
      expandReplacement (p :: ps) (orig.take pos) (orig.drop (pos + (ps.length + 1))) rep
        ++ replaceAllAux p ps rep orig fuel (pos + (ps.length + 1)) (rest.drop ps.length)
    else
      c :: replaceAllAux p ps rep orig fuel (pos + 1) rest

/-- Replace all occurrences of `pat` in `s` by the replacement string
`rep` (with JavaScript dollar-escape expansion); an empty pattern leaves
the subject unchanged (the code never uses an empty pattern). -/
def replaceAll (pat rep s : List Char) : List Char :=
  match pat with
  | [] => s
  | p :: ps => replaceAllAux p ps rep s s.length 0 s

/-- JavaScript `s.replace(/pat/g, rep)` for a literal pattern `pat`,
including the replacement-string dollar-escape semantics. -/
def jsReplaceAll (s pat rep : String) : String :=
  ⟨replaceAll pat.data rep.data s.data⟩

/-- JavaScript `toLowerCase` (ASCII, via `Char.toLower`). -/
def lowerStr (s : String) : String := ⟨s.data.map Char.toLower⟩

/-- JavaScript `trim`: drop whitespace from both ends. -/
def jsTrim (l : List Char) : List Char :=
  ((l.dropWhile Char.isWhitespace).reverse.dropWhile Char.isWhitespace).reverse

/-- JavaScript `String.prototype.split` with a single-character separator:
`"".split(',')` yields `[""]`, separators delimit possibly empty groups. -/
def splitOnChar (sep : Char) : List Char → List (List Char)
  | [] => [[]]
  | c :: rest =>
    let r := splitOnChar sep rest
    if c == sep then [] :: r
    else
      match r with
      | [] => [[c]]
      | g :: gs => (c :: g) :: gs

/-- Scan for the year regex `\((\d{4})\)`, dropping one character after
each failed anchor exactly as the regex engine retries at the next index;
`fuel` only makes the recursion structural. -/
def findYearInAux : Nat → List Char → Option (List Char)
  | _, [] => none
  | 0, _ => none
  | fuel + 1, l =>
    match l with
    | '(' :: a :: b :: c :: d :: ')' :: rest =>
      if a.isDigit && b.isDigit && c.isDigit && d.isDigit then some [a, b, c, d]
      else findYearInAux fuel (a :: b :: c :: d :: ')' :: rest)
    | _ :: rest => findYearInAux fuel rest
    | [] => none

/-- First match of the year regex `\((\d{4})\)` in a character list: the
digit group of the leftmost occurrence of a parenthesized 4-digit run. -/
def findYearIn (l : List Char) : Option (List Char) :=
  findYearInAux l.length l

/-- Strip the leading and trailing runs of `/` (the code's
`replace(/^\/+|\/+$/g, '')`). -/
def stripOuterSlashes (s : String) : String :=
  ⟨((s.data.dropWhile (· == '/')).reverse.dropWhile (· == '/')).reverse⟩

/-- Replace every backslash by a forward slash (the code's
`replace(/\\/g, '/')`). -/
def backslashToSlash (s : String) : String :=
  ⟨s.data.map (fun c => if c == '\\' then '/' else c)⟩

/-- Drop one leading slash if present (the code's `replace(/^\//, '')`). -/
def dropOneLeadingSlash (s : String) : String :=
  ⟨match s.data with
   | '/' :: rest => rest
   | l => l⟩

/-- Drop one trailing slash if present (the code's `replace(/\/$/, '')`). -/
def dropOneTrailingSlash (s : String) : String :=
  ⟨(match s.data.reverse with
    | '/' :: rest => rest
    | l => l).reverse⟩

/-- JavaScript `x || dflt` on an optional string: `null`, `undefined` and
the empty string are falsy. -/
def jsOrS (o : Option String) (dflt : String) : String :=
  match o with
  | some s => if s = "" then dflt else s
  | none => dflt

/-- JavaScript truthiness of an optional string (`null` and `""` falsy). -/
def jsTruthyOpt (o : Option String) : Bool :=
  match o with
  | some s => decide (s ≠ "")
  | none => false

/-! ### Node `path` primitives (POSIX) -/

/-- Segment resolution step of Node's `path.posix.normalize`: empty and `.`
segments vanish, `..` pops the previous segment, and leading `..`s are kept
exactly when the path is relative (`allowAboveRoot`). -/
def normalizeSegs (allowAboveRoot : Bool) : List String → List String → List String
  | acc, [] => acc.reverse
  | acc, seg :: rest =>
    if seg = "" || seg = "." then normalizeSegs allowAboveRoot acc rest
    else if seg = ".." then
      match acc with
      | [] =>
        if allowAboveRoot then normalizeSegs allowAboveRoot [".."] rest
        else normalizeSegs allowAboveRoot [] rest
      | top :: acc' =>
        if top = ".." then normalizeSegs allowAboveRoot (seg :: top :: acc') rest
        else normalizeSegs allowAboveRoot acc' rest
    else normalizeSegs allowAboveRoot (seg :: acc) rest

/-- Node `path.posix.normalize`. -/
def posixNormalize (p : String) : String :=
  if p = "" then "."
  else
    let isAbs := p.data.head? == some '/'
    let trailing := p.data.getLast? == some '/'
    let segs := normalizeSegs (!isAbs) [] ((splitOnChar '/' p.data).map String.mk)
    let body := String.intercalate "/" segs
    if body = "" then
      if isAbs then "/" else if trailing then "./" else "."
    else
      let body' := if trailing then body ++ "/" else body
      if isAbs then "/" ++ body' else body'

/-- Node `path.posix.join`: drop empty arguments, join the rest with `/`,
normalize; with no non-empty argument the result is `"."`. -/
def posixJoin (parts : List String) : String :=
  let ne := parts.filter (fun s => s ≠ "")
  if ne = [] then "." else posixNormalize (String.intercalate "/" ne)

/-- Node `path.posix.basename`: the final path segment, ignoring trailing
slashes. -/
def pathBasename (p : String) : String :=
  ⟨((p.data.reverse.dropWhile (· == '/')).takeWhile (· != '/')).reverse⟩

/-! ### Data model (`prisma/schema.prisma`, `src/interfaces/config.types.ts`,
`QBittorrentTorrent` of `src/core/qbittorrent.service.ts`) -/

/-- The `TaskStatus` enum of `prisma/schema.prisma`. -/
inductive TaskStatus where
  | PENDING_UPLOAD
  | UPLOADING
  | UPLOAD_FAILED
  | PENDING_VERIFICATION
  | VERIFYING
  | VERIFICATION_FAILED
  | UPLOAD_VERIFIED_SUCCESS
  | DELETING_LOCAL
  | LOCAL_DELETED
  | DELETING_QB_TASK
  | QB_TASK_DELETED
  | COMPLETED
  | SKIPPED
  | ERROR
deriving DecidableEq

/-- The name under which a status is stored in the database (SQLite stores
the Prisma enum as TEXT). -/
def statusName : TaskStatus → String
  | .PENDING_UPLOAD => "PENDING_UPLOAD"
  | .UPLOADING => "UPLOADING"
  | .UPLOAD_FAILED => "UPLOAD_FAILED"
  | .PENDING_VERIFICATION => "PENDING_VERIFICATION"
  | .VERIFYING => "VERIFYING"
  | .VERIFICATION_FAILED => "VERIFICATION_FAILED"
  | .UPLOAD_VERIFIED_SUCCESS => "UPLOAD_VERIFIED_SUCCESS"
  | .DELETING_LOCAL => "DELETING_LOCAL"
  | .LOCAL_DELETED => "LOCAL_DELETED"
  | .DELETING_QB_TASK => "DELETING_QB_TASK"
  | .QB_TASK_DELETED => "QB_TASK_DELETED"
  | .COMPLETED => "COMPLETED"
  | .SKIPPED => "SKIPPED"
  | .ERROR => "ERROR"

/-- Rank of a status in the database sort order: SQLite compares the stored
TEXT values, so `ORDER BY status ASC` is the lexicographic (ASCII) order of
the enum names; this function lists that order explicitly. -/
def statusRank : TaskStatus → Nat
  | .COMPLETED => 0
  | .DELETING_LOCAL => 1
  | .DELETING_QB_TASK => 2
  | .ERROR => 3
  | .LOCAL_DELETED => 4
  | .PENDING_UPLOAD => 5
  | .PENDING_VERIFICATION => 6
  | .QB_TASK_DELETED => 7
  | .SKIPPED => 8
  | .UPLOADING => 9
  | .UPLOAD_FAILED => 10
  | .UPLOAD_VERIFIED_SUCCESS => 11
  | .VERIFICATION_FAILED => 12
  | .VERIFYING => 13

/-- A `TorrentTask` row of `prisma/schema.prisma`; timestamps are integers
(milliseconds), `BigInt` sizes are integers. -/
structure TorrentTask where
  id : String
  hash : String
  name : String
  addedAt : Int
  completedAt : Option Int
  localPath : String
  calculatedRemotePath : Option String
  status : TaskStatus
  uploadAttempts : Nat
  verificationAttempts : Nat
  lastAttemptAt : Option Int
  errorMessage : Option String
  uploadSize : Option Int
  uploadDurationMs : Option Int
  createdAt : Int
  updatedAt : Int
deriving DecidableEq

/-- The fields of the qBittorrent torrent descriptor that the task
processor reads (`QBittorrentTorrent` of `qbittorrent.service.ts`);
`added_on` / `completion_on` are the qBittorrent epoch seconds. -/
structure QBittorrentTorrent where
  hash : String
  name : String
  category : String
  tags : String
  save_path : String
  content_path : String
  state : String
  size : Int
  added_on : Int
  completion_on : Int
deriving DecidableEq

/-- `IRcloneConfig` of `config.types.ts`. -/
structure IRcloneConfig where
  configPath : Option String
  remoteName : String
  defaultUploadPath : String
deriving DecidableEq

/-- A rule condition (`IArchivingRuleCondition` of `config.types.ts`): each
field is optional; `tags` is a single tag or a list of tags. -/
structure IArchivingRuleCondition where
  category : Option String := none
  tags : Option (String ⊕ List String) := none
  name_matches : Option String := none
deriving DecidableEq

/-- A rule action (`IArchivingRuleAction` of `config.types.ts`). -/
structure IArchivingRuleAction where
  remotePath : String
deriving DecidableEq

/-- The `if` field of a rule: the literal string `'default'` or a
condition bag. -/
inductive ArchivingRuleCond where
  | defaultMarker
  | conditional (c : IArchivingRuleCondition)
deriving DecidableEq

/-- An archiving rule (`IArchivingRule` of `config.types.ts`); the TS
fields `if` / `then` are Lean keywords and are embedded as
`ruleIf` / `ruleThen`. -/
structure IArchivingRule where
  ruleIf : ArchivingRuleCond
  ruleThen : IArchivingRuleAction
  description : Option String := none
deriving DecidableEq

/-! ### The rule resolver (`calculateRemoteRelativePath`,
`task-processor.service.ts` lines 447-528) -/

/-- The item's tag set as the code computes it:
`torrent.tags.split(',').map(t => t.trim().toLowerCase()).filter(t => t !== '')`. -/
def parseTags (tags : String) : List String :=
  (((splitOnChar ',' tags.data).map fun g =>
      String.mk ((jsTrim g).map Char.toLower)).filter fun s => s ≠ "")

/-- The code's `primaryTag`: the first tag of the tag set, or `"UnTagged"`. -/
def primaryTagOf (t : QBittorrentTorrent) : String :=
  match parseTags t.tags with
  | [] => "UnTagged"
  | tag :: _ => tag

/-- The code's `category` local: `torrent.category || 'Uncategorized'`. -/
def categoryOrDefault (t : QBittorrentTorrent) : String :=
  if t.category = "" then "Uncategorized" else t.category

/-- Condition evaluation for one conditional rule, OR across the condition
fields present on the rule, exactly as the scan body of
`calculateRemoteRelativePath` evaluates them.  `regexTest pat name` stands
for `new RegExp(pat, 'i').test(name)`, returning `false` when the pattern
is an invalid regular expression (the code's `catch` branch).  A condition
field holding an empty string is falsy in JavaScript and is skipped. -/
def conditionMatches (regexTest : String → String → Bool) (t : QBittorrentTorrent)
    (c : IArchivingRuleCondition) : Bool :=
  let category := categoryOrDefault t
  let torrentTagsArray := parseTags t.tags
  let categoryHit :=
    match c.category with
    | some cc => decide (cc ≠ "") && (lowerStr category == lowerStr cc)
    | none => false
  let tagsHit :=
    match c.tags with
    | some (Sum.inl s) => decide (s ≠ "") && torrentTagsArray.contains (lowerStr s)
    | some (Sum.inr l) => l.any fun tag => torrentTagsArray.contains (lowerStr tag)
    | none => false
  let nameHit :=
    match c.name_matches with
    | some pat => decide (pat ≠ "") && regexTest pat t.name
    | none => false
  categoryHit || tagsHit || nameHit

/-- Placeholder substitution applied to a matched rule's `remotePath`
pattern, in the code's order: `{tag}`, `{category}`, `{torrentName}`,
`{year}`, then strip outer slashes and turn backslashes into slashes. -/
def substitutePlaceholders (t : QBittorrentTorrent) (pattern : String) : String :=
  let p1 := jsReplaceAll pattern "\x7btag\x7d" (primaryTagOf t)
  let p2 := jsReplaceAll p1 "\x7bcategory\x7d" (categoryOrDefault t)
  let p3 := jsReplaceAll p2 "\x7btorrentName\x7d" t.name
  let year :=
    match findYearIn t.name.data with
    | some ds => String.mk ds
    | none => "UnknownYear"
  let p4 := jsReplaceAll p3 "\x7byear\x7d" year
  backslashToSlash (stripOuterSlashes p4)

/-- The no-match, no-default fallback of the resolver:
`path.join(primaryTag, category, torrent.name).replace(/\\/g, '/')`. -/
def fallbackPath (t : QBittorrentTorrent) : String :=
  backslashToSlash (posixJoin [primaryTagOf t, categoryOrDefault t, t.name])

/-- The scan loop of `calculateRemoteRelativePath`: walk the rules in
declaration order carrying `defaultRuleActionPathPattern` (overwritten by
each `'default'` rule encountered); a matching conditional rule returns its
substituted pattern at once; at the end of the list the recorded default
pattern is substituted, or the fallback path is built. -/
def resolveRules (regexTest : String → String → Bool) (t : QBittorrentTorrent) :
    List IArchivingRule → Option String → String
  | [], defaultPat =>
    (match defaultPat with
     | some pat => substitutePlaceholders t pat
     | none => fallbackPath t)
  | r :: rest, defaultPat =>
    (match r.ruleIf with
     | ArchivingRuleCond.defaultMarker =>
       resolveRules regexTest t rest (some r.ruleThen.remotePath)
     | ArchivingRuleCond.conditional c =>
       if conditionMatches regexTest t c then substitutePlaceholders t r.ruleThen.remotePath
       else resolveRules regexTest t rest defaultPat)

/-- `calculateRemoteRelativePath(torrent, rules)` of the task processor. -/
def calculateRemoteRelativePath (regexTest : String → String → Bool)
    (t : QBittorrentTorrent) (rules : List IArchivingRule) : String :=
  resolveRules regexTest t rules none

/-! ### The uploader (`src/core/uploader.service.ts`)

The external effects — `fs.stat` on the local path and the `rclone`
process run by `execAsync` — are oracle values: `StatOutcome` is what
`fs.stat` reports (a file, a directory, or a thrown error), `ExecOutcome`
is how the `rclone` invocation ends (exit code 0 with captured output, or
the rejection caught by the `catch` branch: non-zero exit, spawn error or
timeout). -/

/-- Result record of `UploaderService.upload`. -/
structure UploadResult where
  success : Bool
  message : Option String := none
  remotePath : Option String := none
  stdout : Option String := none
  stderr : Option String := none
deriving DecidableEq

/-- Result record of `UploaderService.verifyUpload`. -/
structure VerificationResult where
  verified : Bool
  message : Option String := none
  stdout : Option String := none
  stderr : Option String := none
deriving DecidableEq

/-- Oracle for `fs.stat(localPath)`: regular file, directory, or the stat
call threw (path missing / inaccessible). -/
inductive StatOutcome where
  | file
  | dir
  | statError (msg : String)
deriving DecidableEq

/-- Oracle for the awaited `execAsync` call: the command resolved with exit
code 0 and captured output, or it rejected (non-zero exit, spawn failure or
timeout) carrying the fields of the thrown `ExecError`. -/
inductive ExecOutcome where
  | exit0 (stdout stderr : String)
  | execFail (code : Option Int) (stdout stderr : Option String) (msg : String)
deriving DecidableEq

/-- Whether the stat oracle lets the upload proceed to the command. -/
def statOk : StatOutcome → Bool
  | .statError _ => false
  | _ => true

/-- Whether the exec oracle is an exit-code-0 resolution. -/
def isExit0 : ExecOutcome → Bool
  | .exit0 _ _ => true
  | _ => false

/-- The full rclone destination built by `upload`:
`` `${remoteName}:${defaultUploadPath.replace(/\/$/, '')}/${relativeTargetPath.replace(/^\//, '')}` ``. -/
def rcloneTargetPath (cfg : IRcloneConfig) (relativeTargetPath : String) : String :=
  cfg.remoteName ++ ":" ++ dropOneTrailingSlash cfg.defaultUploadPath ++ "/" ++
    dropOneLeadingSlash relativeTargetPath

/-- `UploaderService.upload(localPath, relativeTargetPath)`.  Returns the
`UploadResult` together with a flag recording whether the external rclone
command was invoked at all (`false` exactly on the early return of the
stat `catch` branch).  Every branch of the source returns a result — the
method never throws to its caller — and that totality is inherited by this
function. -/
def uploaderUpload (cfg : IRcloneConfig) (statO : StatOutcome) (execO : ExecOutcome)
    (localPath relativeTargetPath : String) : UploadResult × Bool :=
  let fullRemotePath := rcloneTargetPath cfg relativeTargetPath
  match statO with
  | .statError m =>
    ({ success := false,
       message := some ("无法访问本地路径: " ++ localPath ++ ". 错误: " ++ m) }, false)
  | _ =>
    match execO with
    | .exit0 so se =>
      ({ success := true, remotePath := some fullRemotePath,
         stdout := some so, stderr := some se }, true)
    | .execFail code so se m =>
      let codeStr :=
        match code with
        | some c => if c = 0 then "N/A" else toString c
        | none => "N/A"
      let errorMessage := jsOrS se (if m = "" then "未知 rclone 执行错误" else m)
      ({ success := false,
         message := some ("Rclone 命令执行失败，退出码 " ++ codeStr ++ ": " ++ errorMessage),
         stdout := so, stderr := se }, true)

/-! ### The task driver (`processTasks`, `handleTask`, `executeUploadStep`,
`executeVerificationStep` of `task-processor.service.ts`) -/

/-- The upload retry ceiling of the actionable-task query: the literal `5`
of `uploadAttempts: { lt: 5 }` in `processTasks`. -/
def uploadRetryCeiling : Nat := 5

/-- The verification retry ceiling of the actionable-task query: the
literal `3` of `verificationAttempts: { lt: 3 }` in `processTasks`. -/
def verificationRetryCeiling : Nat := 3

/-- The `where` clause of the `findMany` call in `processTasks`:
`OR` of the four status branches. -/
def isActionable (t : TorrentTask) : Bool :=
  decide (t.status = TaskStatus.PENDING_UPLOAD)
  || (decide (t.status = TaskStatus.UPLOAD_FAILED)
      && decide (t.uploadAttempts < uploadRetryCeiling))
  || decide (t.status = TaskStatus.PENDING_VERIFICATION)
  || (decide (t.status = TaskStatus.VERIFICATION_FAILED)
      && decide (t.verificationAttempts < verificationRetryCeiling))

/-- The `orderBy: [{ status: 'asc' }, { createdAt: 'asc' }]` sort key as a
relation on rows. -/
def taskOrder (a b : TorrentTask) : Prop :=
  statusRank a.status < statusRank b.status ∨
    (statusRank a.status = statusRank b.status ∧ a.createdAt ≤ b.createdAt)

instance : DecidableRel taskOrder := fun a b => by
  unfold taskOrder; infer_instance

instance : IsTotal TorrentTask taskOrder :=
  ⟨by intro a b; unfold taskOrder; omega⟩

instance : IsTrans TorrentTask taskOrder :=
  ⟨by intro a b c hab hbc; unfold taskOrder at *; omega⟩

/-- The `findMany` of `processTasks` over a store modelled as a row list:
filter by the `where` clause, sort by status then creation time, and take
`maxConcurrentUploads || 1` rows (`0` is falsy in JavaScript). -/
def selectActionableTasks (store : List TorrentTask) (maxConcurrentUploads : Nat) :
    List TorrentTask :=
  (List.insertionSort taskOrder (store.filter isActionable)).take
    (if maxConcurrentUploads = 0 then 1 else maxConcurrentUploads)

/-- The row inserted by `prisma.torrentTask.create` in `processTasks` for a
newly discovered torrent: `id` is the generated cuid, `now` the insertion
clock, and the remaining columns take their schema defaults. -/
def newTaskFromQb (regexTest : String → String → Bool) (rules : List IArchivingRule)
    (qb : QBittorrentTorrent) (id : String) (now : Int) : TorrentTask :=
  let localContentPath :=
    if qb.content_path ≠ "" ∧ qb.content_path ≠ qb.save_path then qb.content_path
    else posixJoin [qb.save_path, qb.name]
  { id := id
    hash := qb.hash
    name := qb.name
    addedAt := qb.added_on * 1000
    completedAt := if qb.completion_on > 0 then some (qb.completion_on * 1000) else none
    localPath := localContentPath
    calculatedRemotePath := some (calculateRemoteRelativePath regexTest qb rules)
    status := TaskStatus.PENDING_UPLOAD
    uploadAttempts := 0
    verificationAttempts := 0
    lastAttemptAt := none
    errorMessage := none
    uploadSize := some qb.size
    uploadDurationMs := none
    createdAt := now
    updatedAt := now }

/-- The `findUnique({ where: { hash } })` existence check. -/
def hashExists (store : List TorrentTask) (h : String) : Bool :=
  store.any fun t => t.hash == h

/-- Number of rows of the store carrying a given hash. -/
def countHash (store : List TorrentTask) (h : String) : Nat :=
  store.countP fun t => t.hash == h

/-- One iteration of the discovery loop of `processTasks`: if a task with
the torrent's hash exists the row is left alone and nothing is inserted,
otherwise a fresh task is created. -/
def syncTorrentToDb (regexTest : String → String → Bool) (rules : List IArchivingRule)
    (store : List TorrentTask) (qb : QBittorrentTorrent) (id : String) (now : Int) :
    List TorrentTask :=
  if hashExists store qb.hash then store
  else store ++ [newTaskFromQb regexTest rules qb id now]

/-- The discovery loop of `processTasks` over the filtered torrent batch;
`mkId` supplies the cuid for each insertion. -/
def processDiscovery (regexTest : String → String → Bool) (rules : List IArchivingRule)
    (mkId : QBittorrentTorrent → String) (now : Int)
    (store : List TorrentTask) (items : List QBittorrentTorrent) : List TorrentTask :=
  items.foldl (fun st qb => syncTorrentToDb regexTest rules st qb (mkId qb) now) store

/-- Outcome of `executeUploadStep` on one task: `rowAtCall` is the row
state written by the first `update` (status `UPLOADING`, attempt counter
incremented) — the state the row is in at the moment
`uploaderService.upload` is invoked — and `finalRow` is the row after the
step's closing `update`. -/
structure UploadStepResult where
  rowAtCall : TorrentTask
  relativeTargetPath : String
  finalRow : TorrentTask
deriving DecidableEq

/-- `executeUploadStep(task)`; `uploadFn` is the
`uploaderService.upload(localPath, relativeTargetPath)` capability and
`now` the wall clock of the step's updates. -/
def executeUploadStep (uploadFn : String → String → UploadResult)
    (task : TorrentTask) (now : Int) : UploadStepResult :=
  let updatedTask : TorrentTask :=
    { task with
        status := TaskStatus.UPLOADING
        uploadAttempts := task.uploadAttempts + 1
        updatedAt := now }
  let relativeTargetPath :=
    jsOrS updatedTask.calculatedRemotePath (pathBasename updatedTask.localPath)
  let uploadResult := uploadFn updatedTask.localPath relativeTargetPath
  { rowAtCall := updatedTask
    relativeTargetPath := relativeTargetPath
    finalRow :=
      if uploadResult.success && jsTruthyOpt uploadResult.remotePath then
        { updatedTask with
            status := TaskStatus.PENDING_VERIFICATION
            errorMessage := none
            verificationAttempts := 0
            updatedAt := now }
      else
        { updatedTask with
            status := TaskStatus.UPLOAD_FAILED
            errorMessage := some (jsOrS uploadResult.message "未知的上传错误")
            updatedAt := now } }

/-- Outcome of `executeVerificationStep` on one task: `callRow` is the row
at the moment `uploaderService.verifyUpload` is invoked (`none` when the
step returned without calling it), `remoteArg` the remote path argument
passed to that call, `finalRow` the row after the step. -/
structure VerificationStepResult where
  callRow : Option TorrentTask
  remoteArg : Option String
  finalRow : TorrentTask
deriving DecidableEq

/-- `executeVerificationStep(task)`; the guard is the code's
`if (!task.calculatedRemotePath)`, so both a null and an empty-string
`calculatedRemotePath` take the immediate `ERROR` return. -/
def executeVerificationStep (verifyFn : String → String → VerificationResult)
    (rclone : IRcloneConfig) (task : TorrentTask) (now : Int) : VerificationStepResult :=
  if jsTruthyOpt task.calculatedRemotePath = false then
    { callRow := none
      remoteArg := none
      finalRow :=
        { task with
            status := TaskStatus.ERROR
            errorMessage := some "验证失败：任务记录中缺少计算出的远程相对路径。"
            updatedAt := now } }
  else
    let updatedTask : TorrentTask :=
      { task with
          status := TaskStatus.VERIFYING
          verificationAttempts := task.verificationAttempts + 1
          updatedAt := now }
    let remoteBasePath := dropOneTrailingSlash rclone.defaultUploadPath
    let relativePath :=
      dropOneLeadingSlash
        (match updatedTask.calculatedRemotePath with
         | some p => p
         | none => "")
    let fullRemote := rclone.remoteName ++ ":" ++ remoteBasePath ++ "/" ++ relativePath
    let res := verifyFn updatedTask.localPath fullRemote
    { callRow := some updatedTask
      remoteArg := some fullRemote
      finalRow :=
        if res.verified then
          { updatedTask with
              status := TaskStatus.UPLOAD_VERIFIED_SUCCESS
              errorMessage := none
              updatedAt := now }
        else
          { updatedTask with
              status := TaskStatus.VERIFICATION_FAILED
              errorMessage := some (jsOrS res.message "未知的验证错误")
              updatedAt := now } }

/-- The status chosen by the `catch` branch of `handleTask` for a task
whose step threw. -/
def nextStatusOnError (st : TaskStatus) : TaskStatus :=
  if st = TaskStatus.UPLOADING ∨ st = TaskStatus.PENDING_UPLOAD ∨
      st = TaskStatus.UPLOAD_FAILED then
    TaskStatus.UPLOAD_FAILED
  else if st = TaskStatus.VERIFYING ∨ st = TaskStatus.PENDING_VERIFICATION ∨
      st = TaskStatus.VERIFICATION_FAILED then
    TaskStatus.VERIFICATION_FAILED
  else TaskStatus.ERROR

/-- The row update performed by the `catch` branch of `handleTask`. -/
def handleTaskErrorUpdate (task : TorrentTask) (errMsg : String) (now : Int) : TorrentTask :=
  { task with
      status := nextStatusOnError task.status
      errorMessage :=
        some ("处理任务时出错 (原始状态 " ++ statusName task.status ++ "): " ++ errMsg)
      updatedAt := now }

/-! ### The driving loop (`start` / `stop` of `TaskProcessorService`)

`start` sets `isRunning`, awaits one immediate `processTasks`, then
registers the interval callback
`if (!this.isRunning) return; await this.processTasks();`.
Because `processTasks` suspends at its awaits, an interval firing while a
previous tick is still in flight runs the callback concurrently with that
tick.  The model makes the event loop explicit: `intervalFire` is the
interval callback running to its first suspension point (it starts a tick
exactly when `isRunning` holds and the interval is registered),
`tickFinish` is an in-flight `processTasks` resolving, `stopCall` is
`stop()` (clears the flag and the interval).  `activeTicks` counts the
`processTasks` executions currently in flight. -/

/-- State of the driving loop's event-loop model. -/
structure LoopState where
  isRunning : Bool
  intervalActive : Bool
  activeTicks : Nat
deriving DecidableEq

/-- Events of the driving loop's event-loop model. -/
inductive LoopEvent where
  | intervalFire
  | tickFinish
  | stopCall
deriving DecidableEq

/-- One event of the driving loop, translated from `start` / `stop`. -/
def loopStep (s : LoopState) : LoopEvent → LoopState
  | .intervalFire =>
    if s.intervalActive then
      if s.isRunning then { s with activeTicks := s.activeTicks + 1 } else s
    else s
  | .tickFinish => { s with activeTicks := s.activeTicks - 1 }
  | .stopCall =>
    if s.isRunning then { s with isRunning := false, intervalActive := false } else s

/-- The loop state right after `start()` resolves: the flag is set, the
interval is registered, the initial awaited tick has completed. -/
def startedState : LoopState :=
  { isRunning := true, intervalActive := true, activeTicks := 0 }

/-- Run a sequence of loop events. -/
def runLoop (s : LoopState) (evs : List LoopEvent) : LoopState :=
  evs.foldl loopStep s

/-! ### Specification-side definitions

These definitions follow the wording of the specification and of the
claims, to be compared with the translations from the source above. -/

/-- Whether a rule is a conditional rule that matches the item — the
predicate the specification's "first rule for which any specified
condition evaluates true" quantifies over; a `'default'` rule never
satisfies it. -/
def ruleConditionalHit (regexTest : String → String → Bool) (t : QBittorrentTorrent)
    (r : IArchivingRule) : Bool :=
  match r.ruleIf with
  | ArchivingRuleCond.defaultMarker => false
  | ArchivingRuleCond.conditional c => conditionMatches regexTest t c

/-- The `remotePath` pattern of the last `'default'` rule of the list, if
any — the pattern the specification says applies "if no conditional rule
matches by end of scan", regardless of the default rule's position. -/
def lastDefaultPattern : List IArchivingRule → Option String
  | [] => none
  | r :: rest =>
    match lastDefaultPattern rest with
    | some p => some p
    | none =>
      match r.ruleIf with
      | ArchivingRuleCond.defaultMarker => some r.ruleThen.remotePath
      | ArchivingRuleCond.conditional _ => none

/-- Simultaneous one-pass placeholder substitution, following the claim's
words "substitutes each placeholder as specified": every occurrence of a
placeholder token in the pattern is replaced by its value, with no
substitution performed inside the substituted values.  `fuel` only makes
the recursion structural. -/
def substSimulAux (tag cat nm yr : List Char) : Nat → List Char → List Char
  | _, [] => []
  | 0, s => s
  | fuel + 1, c :: rest =>
    if isPre "\x7btag\x7d".data (c :: rest) then
      tag ++ substSimulAux tag cat nm yr fuel ((c :: rest).drop 5)
    else if isPre "\x7bcategory\x7d".data (c :: rest) then
      cat ++ substSimulAux tag cat nm yr fuel ((c :: rest).drop 10)
    else if isPre "\x7btorrentName\x7d".data (c :: rest) then
      nm ++ substSimulAux tag cat nm yr fuel ((c :: rest).drop 13)
    else if isPre "\x7byear\x7d".data (c :: rest) then
      yr ++ substSimulAux tag cat nm yr fuel ((c :: rest).drop 6)
    else
      c :: substSimulAux tag cat nm yr fuel rest

/-- The year value a pattern's `\x7byear\x7d` placeholder receives for an
item: the first parenthesized 4-digit group of the item name, or
`"UnknownYear"`. -/
def yearValue (t : QBittorrentTorrent) : String :=
  match findYearIn t.name.data with
  | some ds => String.mk ds
  | none => "UnknownYear"

/-- Claim-side reading of placeholder substitution: simultaneous
substitution of the four placeholders by the values the claim names,
followed by the resolver's path cleanup. -/
def substituteSpecSimultaneous (t : QBittorrentTorrent) (pattern : String) : String :=
  backslashToSlash (stripOuterSlashes
    ⟨substSimulAux (primaryTagOf t).data (categoryOrDefault t).data t.name.data
      (yearValue t).data pattern.data.length pattern.data⟩)

/-- The claim-side actionable predicate: status `PENDING_UPLOAD`, or
`UPLOAD_FAILED` below the upload-retry ceiling, or `PENDING_VERIFICATION`,
or `VERIFICATION_FAILED` below the verification-retry ceiling. -/
def actionableSpec (t : TorrentTask) : Prop :=
  t.status = TaskStatus.PENDING_UPLOAD ∨
    (t.status = TaskStatus.UPLOAD_FAILED ∧ t.uploadAttempts < uploadRetryCeiling) ∨
    t.status = TaskStatus.PENDING_VERIFICATION ∨
    (t.status = TaskStatus.VERIFICATION_FAILED ∧
      t.verificationAttempts < verificationRetryCeiling)

instance : DecidablePred actionableSpec := fun t => by
  unfold actionableSpec; infer_instance

/-- The claim-side actionable-task query: exactly the rows satisfying
`actionableSpec`, ordered by status then creation time, limited to the
configured max-concurrency value. -/
def actionableTasksSpec (store : List TorrentTask) (maxConcurrent : Nat) :
    List TorrentTask :=
  (List.insertionSort taskOrder (store.filter fun t => decide (actionableSpec t))).take
    maxConcurrent

/-! ### Concrete sample data used by witnesses and counterexamples -/

/-- Sample torrent of the no-match fallback example: name `"Gamma"`,
category `"X"`, tags `"sci-fi"`. -/
def gammaItem : QBittorrentTorrent :=
  { hash := "h1", name := "Gamma", category := "X", tags := "sci-fi",
    save_path := "/dl", content_path := "", state := "pausedup",
    size := 10, added_on := 1, completion_on := 2 }

/-- Sample torrent of the placeholder-substitution example: name
`"Beta (1999)"`, category `"Docs"`. -/
def betaItem : QBittorrentTorrent :=
  { hash := "h2", name := "Beta (1999)", category := "Docs", tags := "",
    save_path := "/dl", content_path := "", state := "pausedup",
    size := 10, added_on := 1, completion_on := 2 }

/-- Sample torrent with empty category, empty tags and a year-free name. -/
def plainItem : QBittorrentTorrent :=
  { hash := "h4", name := "Plain", category := "", tags := "",
    save_path := "/dl", content_path := "", state := "pausedup",
    size := 10, added_on := 1, completion_on := 2 }

/-- Sample torrent whose name contains the JavaScript replacement-string
escape `$&`. -/
def dollarItem : QBittorrentTorrent :=
  { hash := "h5", name := "AC$&DC", category := "Docs", tags := "",
    save_path := "/dl", content_path := "", state := "pausedup",
    size := 10, added_on := 1, completion_on := 2 }

/-- Torrent whose name contains the literal placeholder token `{year}`
(written here with escaped braces). -/
def yearTokenItem : QBittorrentTorrent :=
  { hash := "h3", name := "N\x7byear\x7d", category := "Docs", tags := "",
    save_path := "/dl", content_path := "", state := "pausedup",
    size := 10, added_on := 1, completion_on := 2 }

/-- Conditional rule matching category `"Docs"` whose pattern is the bare
`{torrentName}` placeholder. -/
def torrentNameRule : IArchivingRule :=
  { ruleIf := ArchivingRuleCond.conditional { category := some "Docs" },
    ruleThen := { remotePath := "\x7btorrentName\x7d" } }

/-- Conditional rule matching category `"Docs"` with the example pattern
`{category}/{year}/{torrentName}`. -/
def docsRule : IArchivingRule :=
  { ruleIf := ArchivingRuleCond.conditional { category := some "Docs" },
    ruleThen := { remotePath := "\x7bcategory\x7d/\x7byear\x7d/\x7btorrentName\x7d" } }

/-- A sample pending-upload row. -/
def sampleTask : TorrentTask :=
  { id := "t1", hash := "h1", name := "Gamma",
    addedAt := 1000, completedAt := some 2000,
    localPath := "/dl/Gamma", calculatedRemotePath := some "sci-fi/X/Gamma",
    status := TaskStatus.PENDING_UPLOAD,
    uploadAttempts := 0, verificationAttempts := 0,
    lastAttemptAt := none, errorMessage := none,
    uploadSize := some 10, uploadDurationMs := none,
    createdAt := 3000, updatedAt := 3000 }

/-- A sample row with an empty-string `calculatedRemotePath`. -/
def emptyRemoteTask : TorrentTask :=
  { sampleTask with
    id := "t2", hash := "h2",
    calculatedRemotePath := some "", status := TaskStatus.PENDING_VERIFICATION }

/-- A sample rclone configuration. -/
def sampleRclone : IRcloneConfig :=
  { configPath := none, remoteName := "gdrive", defaultUploadPath := "/media/" }

/-! ### Resolver lemmas -/

/-- Characterization of the scan loop: for any recorded default pattern
`acc`, the loop returns the substituted pattern of the first matching
conditional rule; with no conditional match it substitutes the last
default rule's pattern, then falls back to `acc`, then to the synthesized
path. -/
theorem resolveRules_eq_find (regexTest : String → String → Bool) (t : QBittorrentTorrent)
    (rules : List IArchivingRule) (acc : Option String) :
    resolveRules regexTest t rules acc =
      match rules.find? (ruleConditionalHit regexTest t) with
      | some r => substitutePlaceholders t r.ruleThen.remotePath
      | none =>
        match lastDefaultPattern rules with
        | some p => substitutePlaceholders t p
        | none =>
          match acc with
          | some p => substitutePlaceholders t p
          | none => fallbackPath t := by
  induction rules generalizing acc with
  | nil => rfl
  | cons r rest ih =>
    cases hri : r.ruleIf with
    | defaultMarker =>
      have hhit : ruleConditionalHit regexTest t r = false := by
        simp [ruleConditionalHit, hri]
      have hstep : resolveRules regexTest t (r :: rest) acc
          = resolveRules regexTest t rest (some r.ruleThen.remotePath) := by
        simp [resolveRules, hri]
      rw [hstep, ih, List.find?_cons, hhit]
      cases hf : rest.find? (ruleConditionalHit regexTest t) with
      | some r' => simp
      | none =>
        cases hld : lastDefaultPattern rest with
        | some p => simp [lastDefaultPattern, hld, hri]
        | none => simp [lastDefaultPattern, hld, hri]
    | conditional c =>
      have hstep : resolveRules regexTest t (r :: rest) acc
          = if conditionMatches regexTest t c then
              substitutePlaceholders t r.ruleThen.remotePath
            else resolveRules regexTest t rest acc := by
        simp [resolveRules, hri]
      have hhit : ruleConditionalHit regexTest t r = conditionMatches regexTest t c := by
        simp [ruleConditionalHit, hri]
      by_cases hc : conditionMatches regexTest t c = true
      · rw [hstep, if_pos hc, List.find?_cons, hhit, hc]
      · have hc' : conditionMatches regexTest t c = false := by
          simpa using hc
        rw [hstep, if_neg (by simp [hc']), ih, List.find?_cons, hhit, hc']
        cases hf : rest.find? (ruleConditionalHit regexTest t) with
        | some r' => simp
        | none =>
          cases hld : lastDefaultPattern rest with
          | some p => simp [lastDefaultPattern, hld, hri]
          | none => simp [lastDefaultPattern, hld, hri]

/-! ### Claims -/

/-- C1: for every item and every ordered rule list, the resolver selects
the first conditional rule, in declaration order, for which at least one
condition field present on that rule evaluates true, and stops there; a
`'default'` rule is never selected during the scan (the `find?` predicate
is false on it), and its `remotePath` pattern is used only if no
conditional rule in the whole list matches, regardless of the default
rule's position. -/
theorem C1_first_conditional_match_wins_default_last
    (regexTest : String → String → Bool) (t : QBittorrentTorrent)
    (rules : List IArchivingRule) :
    calculateRemoteRelativePath regexTest t rules =
      match rules.find? (ruleConditionalHit regexTest t) with
      | some r => substitutePlaceholders t r.ruleThen.remotePath
      | none =>
        match lastDefaultPattern rules with
        | some p => substitutePlaceholders t p
        | none => fallbackPath t := by
  rw [calculateRemoteRelativePath, resolveRules_eq_find]

/-- C5, counterexample: the claim reads substitution as replacing each
placeholder of the pattern by its value (`{torrentName}` by the item
name).  For the item named `N{year}` and the matched pattern
`{torrentName}`, that reading yields `N{year}`; the code, substituting
sequentially, afterwards rewrites the `{year}` token that arrived inside
the item name, and returns `NUnknownYear` instead. -/
theorem C5_counterexample_token_reintroduction :
    calculateRemoteRelativePath (fun _ _ => false) yearTokenItem [torrentNameRule]
        = "NUnknownYear"
    ∧ substituteSpecSimultaneous yearTokenItem "\x7btorrentName\x7d" = "N\x7byear\x7d"
    ∧ calculateRemoteRelativePath (fun _ _ => false) yearTokenItem [torrentNameRule]
        ≠ substituteSpecSimultaneous yearTokenItem "\x7btorrentName\x7d" := by
  exact ⟨by decide, by decide, by decide⟩

/-- C5, amended: on a conditional match the resolver applies the code's
sequential substitution — `{tag}` by the first tag of the tag set (or
`"UnTagged"`), then `{category}` by the category (or `"Uncategorized"`),
then `{torrentName}` by the item name, then `{year}` by the first 4-digit
parenthesized group of the item name (or `"UnknownYear"`) — where each
substitution is a JavaScript `replace` call, so values substituted early
are themselves subject to the later substitutions and dollar escapes
(`$$`, `$&`, `` $` ``, `$'`) occurring in a substituted value are expanded
by the replace performing that substitution; the flagship example
`{category}/{year}/{torrentName}` on `"Beta (1999)"` / `"Docs"` yields
`"Docs/1999/Beta (1999)"`, each placeholder receives the documented
default, and the item named `AC$&DC` on pattern `{torrentName}` yields
`AC{torrentName}DC` (the `$&` expands to the matched token). -/
theorem C5_amended_sequential_substitution
    (regexTest : String → String → Bool) (t : QBittorrentTorrent)
    (rules : List IArchivingRule) (r : IArchivingRule)
    (hfind : rules.find? (ruleConditionalHit regexTest t) = some r) :
    calculateRemoteRelativePath regexTest t rules
        = substitutePlaceholders t r.ruleThen.remotePath
    ∧ calculateRemoteRelativePath regexTest betaItem [docsRule]
        = "Docs/1999/Beta (1999)"
    ∧ substitutePlaceholders betaItem
        "\x7bcategory\x7d/\x7byear\x7d/\x7btorrentName\x7d" = "Docs/1999/Beta (1999)"
    ∧ substitutePlaceholders gammaItem "\x7btag\x7d" = "sci-fi"
    ∧ substitutePlaceholders betaItem "\x7btag\x7d" = "UnTagged"
    ∧ substitutePlaceholders plainItem "\x7bcategory\x7d" = "Uncategorized"
    ∧ substitutePlaceholders plainItem "\x7byear\x7d" = "UnknownYear"
    ∧ substitutePlaceholders dollarItem "\x7btorrentName\x7d"
        = "AC\x7btorrentName\x7dDC"
    ∧ calculateRemoteRelativePath regexTest dollarItem [torrentNameRule]
        = "AC\x7btorrentName\x7dDC" := by
  refine ⟨?_, rfl, by decide, by decide, by decide, by decide, by decide, by decide, rfl⟩
  rw [calculateRemoteRelativePath, resolveRules_eq_find, hfind]

/-- C5, witness for the amended theorem at the example item and rule. -/
theorem C5_amended_witness :
    calculateRemoteRelativePath (fun _ _ => false) betaItem [docsRule]
        = substitutePlaceholders betaItem docsRule.ruleThen.remotePath
    ∧ calculateRemoteRelativePath (fun _ _ => false) betaItem [docsRule]
        = "Docs/1999/Beta (1999)" := by
  have h := C5_amended_sequential_substitution (fun _ _ => false) betaItem [docsRule]
    docsRule (by decide)
  exact ⟨h.1, h.2.1⟩

/-- C6: when no conditional rule matches and the list holds no default
rule (the empty rule list in particular), the resolver returns the
synthesized `primaryTag/category/itemName` path, so a destination path is
always computed; the example item `Gamma` / `X` / `sci-fi` on the empty
rule list resolves to `"sci-fi/X/Gamma"`. -/
theorem C6_no_match_no_default_fallback
    (regexTest : String → String → Bool) (t : QBittorrentTorrent)
    (rules : List IArchivingRule)
    (hmatch : ∀ r ∈ rules, ruleConditionalHit regexTest t r = false)
    (hdef : lastDefaultPattern rules = none) :
    calculateRemoteRelativePath regexTest t rules = fallbackPath t
    ∧ fallbackPath t
        = backslashToSlash (posixJoin [primaryTagOf t, categoryOrDefault t, t.name])
    ∧ calculateRemoteRelativePath regexTest gammaItem [] = "sci-fi/X/Gamma" := by
  refine ⟨?_, rfl, rfl⟩
  have hf : rules.find? (ruleConditionalHit regexTest t) = none :=
    List.find?_eq_none.mpr fun r hr => by simp [hmatch r hr]
  rw [calculateRemoteRelativePath, resolveRules_eq_find, hf, hdef]

/-- C6, witness at the example item and the empty rule list. -/
theorem C6_witness :
    calculateRemoteRelativePath (fun _ _ => false) gammaItem [] = fallbackPath gammaItem
    ∧ fallbackPath gammaItem = backslashToSlash
        (posixJoin [primaryTagOf gammaItem, categoryOrDefault gammaItem, gammaItem.name])
    ∧ calculateRemoteRelativePath (fun _ _ => false) gammaItem [] = "sci-fi/X/Gamma" :=
  C6_no_match_no_default_fallback (fun _ _ => false) gammaItem []
    (by intro r hr; cases hr) rfl

/-! ### Driving-loop lemmas and claim C2 -/

/-- While the processor is running and the interval registered, `n`
consecutive interval firings add `n` in-flight ticks. -/
theorem runLoop_replicate_fire (n : Nat) (s : LoopState)
    (h1 : s.isRunning = true) (h2 : s.intervalActive = true) :
    runLoop s (List.replicate n LoopEvent.intervalFire)
      = { s with activeTicks := s.activeTicks + n } := by
  induction n generalizing s with
  | zero => simp [runLoop]
  | succ n ih =>
    have hstep : loopStep s LoopEvent.intervalFire
        = { s with activeTicks := s.activeTicks + 1 } := by
      simp [loopStep, h1, h2]
    have hcons : runLoop s (List.replicate (n + 1) LoopEvent.intervalFire)
        = runLoop { s with activeTicks := s.activeTicks + 1 }
            (List.replicate n LoopEvent.intervalFire) := by
      rw [List.replicate_succ]
      simp [runLoop, hstep]
    rw [hcons, ih { s with activeTicks := s.activeTicks + 1 } h1 h2]
    have : s.activeTicks + 1 + n = s.activeTicks + (n + 1) := by omega
    rw [this]

/-- C2, counterexample: the interval callback checks only the `isRunning`
stop flag, never whether a tick is still in flight, so from the started
state two interval firings with no tick completion in between leave two
`processTasks` executions running concurrently — the claim "the new tick
is skipped rather than started concurrently" fails. -/
theorem C2_counterexample_parallel_ticks :
    (runLoop startedState [LoopEvent.intervalFire, LoopEvent.intervalFire]).activeTicks = 2
    ∧ ¬((runLoop startedState
        [LoopEvent.intervalFire, LoopEvent.intervalFire]).activeTicks ≤ 1) := by
  exact ⟨by decide, by decide⟩

/-- C2, amended: the interval callback's only guard is the stop flag —
after `stop()` a firing is a no-op, while the processor is running every
firing starts a new tick regardless of how many ticks are already in
flight, so the number of concurrent ticks grows without bound when ticks
outlast the poll interval. -/
theorem C2_amended_only_stop_flag_guard (n : Nat) (s : LoopState) :
    (runLoop startedState (List.replicate n LoopEvent.intervalFire)).activeTicks = n
    ∧ (s.isRunning = false → loopStep s LoopEvent.intervalFire = s)
    ∧ (s.isRunning = true → s.intervalActive = true →
        (loopStep s LoopEvent.intervalFire).activeTicks = s.activeTicks + 1) := by
  refine ⟨?_, ?_, ?_⟩
  · rw [runLoop_replicate_fire n startedState rfl rfl]
    simp [startedState]
  · intro h
    cases hia : s.intervalActive <;> simp [loopStep, h, hia]
  · intro h1 h2
    simp [loopStep, h1, h2]

/-- C2, witness for the amended theorem. -/
theorem C2_amended_witness :
    (runLoop startedState (List.replicate 2 LoopEvent.intervalFire)).activeTicks = 2
    ∧ loopStep { isRunning := false, intervalActive := false, activeTicks := 1 }
        LoopEvent.intervalFire
        = { isRunning := false, intervalActive := false, activeTicks := 1 }
    ∧ (loopStep startedState LoopEvent.intervalFire).activeTicks
        = startedState.activeTicks + 1 :=
  ⟨(C2_amended_only_stop_flag_guard 2
      { isRunning := false, intervalActive := false, activeTicks := 1 }).1,
   (C2_amended_only_stop_flag_guard 0
      { isRunning := false, intervalActive := false, activeTicks := 1 }).2.1 rfl,
   (C2_amended_only_stop_flag_guard 0 startedState).2.2 rfl rfl⟩

/-! ### Actionable-task query lemmas and claim C3 -/

/-- The translated `where` clause agrees pointwise with the claim-side
actionable predicate. -/
theorem isActionable_iff (t : TorrentTask) :
    isActionable t = true ↔ actionableSpec t := by
  simp only [isActionable, actionableSpec, Bool.or_eq_true, Bool.and_eq_true,
    decide_eq_true_eq]
  tauto

/-- Boolean form of `isActionable_iff`. -/
theorem isActionable_eq_decide (t : TorrentTask) :
    isActionable t = decide (actionableSpec t) := by
  by_cases h : actionableSpec t
  · simp [h, (isActionable_iff t).mpr h]
  · cases hb : isActionable t with
    | true => exact absurd ((isActionable_iff t).mp hb) h
    | false => simp [h]

/-- C3: the actionable-task query equals the claim-side query — exactly
the rows whose status is `PENDING_UPLOAD`, or `UPLOAD_FAILED` below the
upload-retry ceiling, or `PENDING_VERIFICATION`, or `VERIFICATION_FAILED`
below the verification-retry ceiling, ordered by status then creation
time and limited to the configured max-concurrency value — so an
`UPLOAD_FAILED` row at the ceiling is never selected, every selected row
is an actionable row of the store, at most `n` rows are returned and the
result is sorted. -/
theorem C3_actionable_query (store : List TorrentTask) (n : Nat) (hn : 1 ≤ n) :
    selectActionableTasks store n = actionableTasksSpec store n
    ∧ (∀ t ∈ selectActionableTasks store n, t ∈ store ∧ actionableSpec t)
    ∧ (∀ t ∈ selectActionableTasks store n, t.status = TaskStatus.UPLOAD_FAILED →
        t.uploadAttempts < uploadRetryCeiling)
    ∧ (∀ t ∈ selectActionableTasks store n, t.status = TaskStatus.VERIFICATION_FAILED →
        t.verificationAttempts < verificationRetryCeiling)
    ∧ (selectActionableTasks store n).length ≤ n
    ∧ List.Sorted taskOrder (selectActionableTasks store n) := by
  have hmem : ∀ t ∈ selectActionableTasks store n, t ∈ store ∧ actionableSpec t := by
    intro t ht
    have h1 : t ∈ List.insertionSort taskOrder (store.filter isActionable) :=
      (List.take_sublist _ _).subset ht
    have h2 : t ∈ store.filter isActionable :=
      (List.perm_insertionSort taskOrder (store.filter isActionable)).mem_iff.mp h1
    have h3 := List.mem_filter.mp h2
    exact ⟨h3.1, (isActionable_iff t).mp h3.2⟩
  refine ⟨?_, hmem, ?_, ?_, ?_, ?_⟩
  · rw [selectActionableTasks, actionableTasksSpec, if_neg (by omega),
      List.filter_congr fun t _ => isActionable_eq_decide t]
  · intro t ht hst
    rcases (hmem t ht).2 with h | ⟨_, hlt⟩ | h | ⟨h, _⟩ <;> simp_all
  · intro t ht hst
    rcases (hmem t ht).2 with h | ⟨h, _⟩ | h | ⟨_, hlt⟩ <;> simp_all
  · calc (selectActionableTasks store n).length
        ≤ (if n = 0 then 1 else n) := List.length_take_le _ _
      _ = n := by rw [if_neg (by omega)]
  · exact List.Pairwise.sublist (List.take_sublist _ _)
      (List.sorted_insertionSort taskOrder (store.filter isActionable))

/-- C3, witness at a one-row store of a pending-upload task. -/
theorem C3_witness :
    selectActionableTasks [sampleTask] 1 = actionableTasksSpec [sampleTask] 1
    ∧ (sampleTask ∈ [sampleTask] ∧ actionableSpec sampleTask)
    ∧ (selectActionableTasks [sampleTask] 1).length ≤ 1
    ∧ List.Sorted taskOrder (selectActionableTasks [sampleTask] 1) := by
  have h := C3_actionable_query [sampleTask] 1 (by decide)
  exact ⟨h.1, h.2.1 sampleTask (by decide), h.2.2.2.2.1, h.2.2.2.2.2⟩

/-! ### Discovery lemmas and claim C4 -/

/-- Discovery never removes a hash from the store. -/
theorem hashExists_sync (regexTest : String → String → Bool)
    (rules : List IArchivingRule) (store : List TorrentTask)
    (qb : QBittorrentTorrent) (id : String) (now : Int) (h : String)
    (hex : hashExists store h = true) :
    hashExists (syncTorrentToDb regexTest rules store qb id now) h = true := by
  unfold syncTorrentToDb
  split
  · exact hex
  · rw [hashExists, List.any_append]
    rw [hashExists] at hex
    simp [hex]

/-- After one discovery iteration the torrent's hash is present. -/
theorem hashExists_sync_self (regexTest : String → String → Bool)
    (rules : List IArchivingRule) (store : List TorrentTask)
    (qb : QBittorrentTorrent) (id : String) (now : Int) :
    hashExists (syncTorrentToDb regexTest rules store qb id now) qb.hash = true := by
  unfold syncTorrentToDb
  split
  · next hex => exact hex
  · rw [hashExists, List.any_append]
    simp [newTaskFromQb]

/-- The discovery loop never removes a hash from the store. -/
theorem processDiscovery_preserves_hashExists (regexTest : String → String → Bool)
    (rules : List IArchivingRule) (mkId : QBittorrentTorrent → String) (now : Int) :
    ∀ (items : List QBittorrentTorrent) (store : List TorrentTask) (h : String),
      hashExists store h = true →
      hashExists (processDiscovery regexTest rules mkId now store items) h = true := by
  intro items
  induction items with
  | nil => intro store h hex; exact hex
  | cons i rest ih =>
    intro store h hex
    simp only [processDiscovery, List.foldl_cons]
    exact ih _ h (hashExists_sync regexTest rules store i (mkId i) now h hex)

/-- After a discovery pass, every processed torrent's hash is present. -/
theorem processDiscovery_mem_hashExists (regexTest : String → String → Bool)
    (rules : List IArchivingRule) (mkId : QBittorrentTorrent → String) (now : Int) :
    ∀ (items : List QBittorrentTorrent) (store : List TorrentTask)
      (qb : QBittorrentTorrent), qb ∈ items →
      hashExists (processDiscovery regexTest rules mkId now store items) qb.hash = true := by
  intro items
  induction items with
  | nil => intro store qb h; cases h
  | cons i rest ih =>
    intro store qb h
    simp only [processDiscovery, List.foldl_cons]
    rcases List.mem_cons.mp h with rfl | hmem
    · exact processDiscovery_preserves_hashExists regexTest rules mkId now rest _ _
        (hashExists_sync_self regexTest rules store qb (mkId qb) now)
    · exact ih _ qb hmem

/-- A discovery pass over torrents whose hashes are all present leaves the
store unchanged. -/
theorem processDiscovery_stable (regexTest : String → String → Bool)
    (rules : List IArchivingRule) (mkId : QBittorrentTorrent → String) (now : Int) :
    ∀ (items : List QBittorrentTorrent) (store : List TorrentTask),
      (∀ qb ∈ items, hashExists store qb.hash = true) →
      processDiscovery regexTest rules mkId now store items = store := by
  intro items
  induction items with
  | nil => intro store _; rfl
  | cons i rest ih =>
    intro store hall
    simp only [processDiscovery, List.foldl_cons]
    have hsync : syncTorrentToDb regexTest rules store i (mkId i) now = store := by
      unfold syncTorrentToDb
      rw [if_pos (hall i (by simp))]
    rw [hsync]
    exact ih store fun qb hq => hall qb (by simp [hq])

/-- One discovery iteration keeps at most `max (previous count) 1` rows per
hash. -/
theorem countHash_sync_le (regexTest : String → String → Bool)
    (rules : List IArchivingRule) (store : List TorrentTask)
    (qb : QBittorrentTorrent) (id : String) (now : Int) (h : String) :
    countHash (syncTorrentToDb regexTest rules store qb id now) h
      ≤ max (countHash store h) 1 := by
  unfold syncTorrentToDb
  split
  · exact le_max_left _ _
  · next hex =>
    rw [countHash, List.countP_append]
    by_cases hqh : (qb.hash == h) = true
    · have h0 : store.countP (fun t => t.hash == h) = 0 := by
        rw [List.countP_eq_zero]
        intro t ht hc
        apply hex
        rw [hashExists, List.any_eq_true]
        refine ⟨t, ht, ?_⟩
        rw [beq_iff_eq] at hc hqh ⊢
        rw [hc, hqh]
      have h1 : List.countP (fun t => t.hash == h) [newTaskFromQb regexTest rules qb id now]
          ≤ 1 := by
        simp only [List.countP_cons, List.countP_nil]
        split <;> omega
      calc store.countP (fun t => t.hash == h)
            + List.countP (fun t => t.hash == h) [newTaskFromQb regexTest rules qb id now]
          ≤ 0 + 1 := by omega
        _ ≤ max (countHash store h) 1 := by omega
    · have h1 : List.countP (fun t => t.hash == h) [newTaskFromQb regexTest rules qb id now]
          = 0 := by
        simp only [List.countP_cons, List.countP_nil]
        have : ((newTaskFromQb regexTest rules qb id now).hash == h) = false := by
          simpa [newTaskFromQb] using hqh
        simp [this]
      rw [h1, countHash]
      omega

/-- A discovery pass keeps at most `max (previous count) 1` rows per hash. -/
theorem countHash_processDiscovery_le (regexTest : String → String → Bool)
    (rules : List IArchivingRule) (mkId : QBittorrentTorrent → String) (now : Int) :
    ∀ (items : List QBittorrentTorrent) (store : List TorrentTask) (h : String),
      countHash (processDiscovery regexTest rules mkId now store items) h
        ≤ max (countHash store h) 1 := by
  intro items
  induction items with
  | nil => intro store h; exact le_max_left _ _
  | cons i rest ih =>
    intro store h
    simp only [processDiscovery, List.foldl_cons]
    calc countHash (processDiscovery regexTest rules mkId now
            (syncTorrentToDb regexTest rules store i (mkId i) now) rest) h
        ≤ max (countHash (syncTorrentToDb regexTest rules store i (mkId i) now) h) 1 :=
          ih _ h
      _ ≤ max (max (countHash store h) 1) 1 :=
          max_le_max (countHash_sync_le regexTest rules store i (mkId i) now h)
            (le_refl 1)
      _ = max (countHash store h) 1 := by omega

/-- C4: discovery is idempotent with respect to the source item's hash —
when a task with the torrent's hash exists, the discovery iteration
performs no insert and leaves every row untouched; a full second discovery
pass over the same item batch (with fresh ids and clock) changes nothing;
and no hash ever ends up with more rows than `max (previous count) 1`, so
a second task for an existing hash is never created. -/
theorem C4_idempotent_discovery (regexTest : String → String → Bool)
    (rules : List IArchivingRule) (mkId mkId2 : QBittorrentTorrent → String)
    (now now2 : Int) (store : List TorrentTask) (items : List QBittorrentTorrent)
    (qb : QBittorrentTorrent) (id : String)
    (hex : hashExists store qb.hash = true) :
    syncTorrentToDb regexTest rules store qb id now = store
    ∧ processDiscovery regexTest rules mkId2 now2
        (processDiscovery regexTest rules mkId now store items) items
        = processDiscovery regexTest rules mkId now store items
    ∧ ∀ h, countHash (processDiscovery regexTest rules mkId now store items) h
        ≤ max (countHash store h) 1 := by
  refine ⟨?_, ?_, ?_⟩
  · unfold syncTorrentToDb
    rw [if_pos hex]
  · exact processDiscovery_stable regexTest rules mkId2 now2 items _
      fun i hi => processDiscovery_mem_hashExists regexTest rules mkId now items store i hi
  · intro h
    exact countHash_processDiscovery_le regexTest rules mkId now items store h

/-- C4, witness: a store already holding the example item's task. -/
theorem C4_witness :
    syncTorrentToDb (fun _ _ => false) [] [sampleTask] gammaItem "id9" 7 = [sampleTask]
    ∧ processDiscovery (fun _ _ => false) [] (fun _ => "id8") 8
        (processDiscovery (fun _ _ => false) [] (fun _ => "id7") 7 [sampleTask] [gammaItem])
        [gammaItem]
        = processDiscovery (fun _ _ => false) [] (fun _ => "id7") 7 [sampleTask] [gammaItem]
    ∧ countHash (processDiscovery (fun _ _ => false) [] (fun _ => "id7") 7 [sampleTask]
        [gammaItem]) "h1" ≤ max (countHash [sampleTask] "h1") 1 := by
  have h := C4_idempotent_discovery (fun _ _ => false) [] (fun _ => "id7") (fun _ => "id8")
    7 8 [sampleTask] [gammaItem] gammaItem "id9" (by decide)
  exact ⟨h.1, h.2.1, h.2.2 "h1"⟩

/-! ### Verification-step claim C7 -/

/-- C7, counterexample: the guard of `executeVerificationStep` is the
JavaScript truthiness test `if (!task.calculatedRemotePath)`, so a task
whose `calculatedRemotePath` is the non-null *empty string* also takes the
immediate `ERROR` branch — contradicting the claim that for tasks with a
non-null remotePath the `ERROR` branch is not taken. -/
theorem C7_counterexample_empty_string_remote_path :
    emptyRemoteTask.calculatedRemotePath ≠ none
    ∧ (executeVerificationStep (fun _ _ => { verified := true }) sampleRclone
        emptyRemoteTask 5000).finalRow.status = TaskStatus.ERROR
    ∧ (executeVerificationStep (fun _ _ => { verified := true }) sampleRclone
        emptyRemoteTask 5000).callRow = none := by
  exact ⟨by decide, by decide, by decide⟩

/-- C7, amended: a task entering the verification step with a null *or
empty-string* `calculatedRemotePath` transitions directly to `ERROR` with
an error message, without incrementing `verificationAttempts` and without
any verify call; for a task with a non-null, non-empty
`calculatedRemotePath` the `ERROR` branch is not taken and the verify call
is made. -/
theorem C7_amended_unrecoverable_verify
    (verifyFn : String → String → VerificationResult) (rclone : IRcloneConfig)
    (task : TorrentTask) (now : Int) :
    (jsTruthyOpt task.calculatedRemotePath = false →
      (executeVerificationStep verifyFn rclone task now).finalRow.status = TaskStatus.ERROR
      ∧ (executeVerificationStep verifyFn rclone task now).finalRow.errorMessage.isSome
          = true
      ∧ (executeVerificationStep verifyFn rclone task now).finalRow.verificationAttempts
          = task.verificationAttempts
      ∧ (executeVerificationStep verifyFn rclone task now).callRow = none)
    ∧ (jsTruthyOpt task.calculatedRemotePath = true →
      (executeVerificationStep verifyFn rclone task now).finalRow.status ≠ TaskStatus.ERROR
      ∧ (executeVerificationStep verifyFn rclone task now).callRow ≠ none) := by
  constructor
  · intro h
    simp [executeVerificationStep, h]
  · intro h
    have h' : ¬(jsTruthyOpt task.calculatedRemotePath = false) := by simp [h]
    simp only [executeVerificationStep, if_neg h']
    constructor
    · split <;> simp
    · simp

/-- C7, witness for the amended theorem: the empty-string task takes the
`ERROR` branch without incrementing, the non-empty task does not. -/
theorem C7_amended_witness :
    ((executeVerificationStep (fun _ _ => { verified := true }) sampleRclone
        emptyRemoteTask 5000).finalRow.status = TaskStatus.ERROR
      ∧ (executeVerificationStep (fun _ _ => { verified := true }) sampleRclone
        emptyRemoteTask 5000).finalRow.verificationAttempts
          = emptyRemoteTask.verificationAttempts
      ∧ (executeVerificationStep (fun _ _ => { verified := true }) sampleRclone
        emptyRemoteTask 5000).callRow = none)
    ∧ (executeVerificationStep (fun _ _ => { verified := true }) sampleRclone
        sampleTask 5000).finalRow.status ≠ TaskStatus.ERROR := by
  have h1 := (C7_amended_unrecoverable_verify (fun _ _ => { verified := true })
    sampleRclone emptyRemoteTask 5000).1 (by decide)
  have h2 := (C7_amended_unrecoverable_verify (fun _ _ => { verified := true })
    sampleRclone sampleTask 5000).2 (by decide)
  exact ⟨⟨h1.1, h1.2.2.1, h1.2.2.2⟩, h2.1⟩

/-! ### Attempt-counting claim C8 -/

/-- C8: a dispatched upload attempt increments `uploadAttempts` by exactly
one in the row state written *before* the external upload call
(`rowAtCall`), and the step's final row keeps that value whatever the
call's outcome; likewise a dispatched verification attempt (one where the
verify call row exists) increments `verificationAttempts` by exactly one
before the call, kept in the final row for either outcome. -/
theorem C8_attempts_increment_once_before_call
    (uploadFn : String → String → UploadResult)
    (verifyFn : String → String → VerificationResult) (rclone : IRcloneConfig)
    (task task2 : TorrentTask) (now now2 : Int) (r : TorrentTask)
    (hcall : (executeVerificationStep verifyFn rclone task2 now2).callRow = some r) :
    (executeUploadStep uploadFn task now).rowAtCall.uploadAttempts
        = task.uploadAttempts + 1
    ∧ (executeUploadStep uploadFn task now).finalRow.uploadAttempts
        = task.uploadAttempts + 1
    ∧ r.verificationAttempts = task2.verificationAttempts + 1
    ∧ (executeVerificationStep verifyFn rclone task2 now2).finalRow.verificationAttempts
        = task2.verificationAttempts + 1 := by
  have hguard : ¬(jsTruthyOpt task2.calculatedRemotePath = false) := by
    intro hg
    rw [executeVerificationStep, if_pos hg] at hcall
    cases hcall
  have hr : r = { task2 with
      status := TaskStatus.VERIFYING
      verificationAttempts := task2.verificationAttempts + 1
      updatedAt := now2 } := by
    rw [executeVerificationStep, if_neg hguard] at hcall
    cases hcall
    rfl
  refine ⟨rfl, ?_, ?_, ?_⟩
  · simp only [executeUploadStep]
    split <;> rfl
  · rw [hr]
  · rw [executeVerificationStep, if_neg hguard]
    simp only
    split <;> rfl

/-- C8, witness at the sample task with concrete upload and verify
oracles. -/
theorem C8_witness :
    (executeUploadStep (fun _ _ => { success := false }) sampleTask 5000).rowAtCall.uploadAttempts
        = sampleTask.uploadAttempts + 1
    ∧ (executeUploadStep (fun _ _ => { success := false }) sampleTask 5000).finalRow.uploadAttempts
        = sampleTask.uploadAttempts + 1
    ∧ ({ sampleTask with
          status := TaskStatus.VERIFYING
          verificationAttempts := sampleTask.verificationAttempts + 1
          updatedAt := 5000 } : TorrentTask).verificationAttempts
        = sampleTask.verificationAttempts + 1
    ∧ (executeVerificationStep (fun _ _ => { verified := false }) sampleRclone
        sampleTask 5000).finalRow.verificationAttempts
        = sampleTask.verificationAttempts + 1 :=
  C8_attempts_increment_once_before_call (fun _ _ => { success := false })
    (fun _ _ => { verified := false }) sampleRclone sampleTask sampleTask 5000 5000
    { sampleTask with
        status := TaskStatus.VERIFYING
        verificationAttempts := sampleTask.verificationAttempts + 1
        updatedAt := 5000 }
    (by decide)

/-! ### Remote-path immutability claim C9 -/

/-- C9: `calculatedRemotePath` is written exactly once, at task creation
(where it receives the resolver's output), and every later driver write —
the upload step's pre-call and final updates, the verification step's
pre-call and final updates, and the task-level error handler — leaves the
field unchanged. -/
theorem C9_remote_path_computed_once_immutable
    (regexTest : String → String → Bool) (rules : List IArchivingRule)
    (qb : QBittorrentTorrent) (id : String)
    (uploadFn : String → String → UploadResult)
    (verifyFn : String → String → VerificationResult) (rclone : IRcloneConfig)
    (task task2 task3 : TorrentTask) (now : Int) (errMsg : String) (r : TorrentTask)
    (hcall : (executeVerificationStep verifyFn rclone task2 now).callRow = some r) :
    (newTaskFromQb regexTest rules qb id now).calculatedRemotePath
        = some (calculateRemoteRelativePath regexTest qb rules)
    ∧ (executeUploadStep uploadFn task now).rowAtCall.calculatedRemotePath
        = task.calculatedRemotePath
    ∧ (executeUploadStep uploadFn task now).finalRow.calculatedRemotePath
        = task.calculatedRemotePath
    ∧ r.calculatedRemotePath = task2.calculatedRemotePath
    ∧ (executeVerificationStep verifyFn rclone task2 now).finalRow.calculatedRemotePath
        = task2.calculatedRemotePath
    ∧ (handleTaskErrorUpdate task3 errMsg now).calculatedRemotePath
        = task3.calculatedRemotePath := by
  have hguard : ¬(jsTruthyOpt task2.calculatedRemotePath = false) := by
    intro hg
    rw [executeVerificationStep, if_pos hg] at hcall
    cases hcall
  have hr : r = { task2 with
      status := TaskStatus.VERIFYING
      verificationAttempts := task2.verificationAttempts + 1
      updatedAt := now } := by
    rw [executeVerificationStep, if_neg hguard] at hcall
    cases hcall
    rfl
  refine ⟨rfl, rfl, ?_, ?_, ?_, rfl⟩
  · simp only [executeUploadStep]
    split <;> rfl
  · rw [hr]
  · rw [executeVerificationStep]
    split
    · rfl
    · simp only
      split <;> rfl

/-- C9, witness at the sample data. -/
theorem C9_witness :
    (newTaskFromQb (fun _ _ => false) [] gammaItem "id1" 7).calculatedRemotePath
        = some (calculateRemoteRelativePath (fun _ _ => false) gammaItem [])
    ∧ (executeUploadStep (fun _ _ => { success := false }) sampleTask 5000).finalRow.calculatedRemotePath
        = sampleTask.calculatedRemotePath
    ∧ (executeVerificationStep (fun _ _ => { verified := false }) sampleRclone
        sampleTask 5000).finalRow.calculatedRemotePath = sampleTask.calculatedRemotePath
    ∧ (handleTaskErrorUpdate sampleTask "boom" 5000).calculatedRemotePath
        = sampleTask.calculatedRemotePath := by
  have h := C9_remote_path_computed_once_immutable (fun _ _ => false) [] gammaItem "id1"
    (fun _ _ => { success := false }) (fun _ _ => { verified := false }) sampleRclone
    sampleTask sampleTask sampleTask 5000 "boom"
    { sampleTask with
        status := TaskStatus.VERIFYING
        verificationAttempts := sampleTask.verificationAttempts + 1
        updatedAt := 5000 }
    (by decide)
  exact ⟨h.1, h.2.2.1, h.2.2.2.2.1, h.2.2.2.2.2⟩

/-! ### Uploader claim C10 -/

/-- C10: `upload` never throws (it is total by construction) and its
success flag is true exactly when the rclone command was invoked and
exited with code zero — when the local path cannot be stat'ed it returns
`success = false` with a message and no command invocation; when the
command rejects (non-zero exit or error) it returns `success = false` with
a diagnostic message; when the command exits zero it returns
`success = true` for *every* captured stderr value `se`, including a
non-empty one or one containing the word "error". -/
theorem C10_upload_success_iff_stat_ok_and_exit0
    (cfg : IRcloneConfig) (localPath relativeTargetPath m m2 so se : String)
    (code : Option Int) (so2 se2 : Option String)
    (eo : ExecOutcome) (statO : StatOutcome) :
    (uploaderUpload cfg (StatOutcome.statError m) eo localPath relativeTargetPath).2 = false
    ∧ (uploaderUpload cfg (StatOutcome.statError m) eo localPath
        relativeTargetPath).1.success = false
    ∧ (uploaderUpload cfg (StatOutcome.statError m) eo localPath
        relativeTargetPath).1.message.isSome = true
    ∧ (uploaderUpload cfg statO eo localPath relativeTargetPath).2 = statOk statO
    ∧ (uploaderUpload cfg statO eo localPath relativeTargetPath).1.success
        = (statOk statO && isExit0 eo)
    ∧ (uploaderUpload cfg StatOutcome.file (ExecOutcome.exit0 so se) localPath
        relativeTargetPath).1.success = true
    ∧ (uploaderUpload cfg StatOutcome.dir (ExecOutcome.exit0 so se) localPath
        relativeTargetPath).1.success = true
    ∧ (uploaderUpload cfg StatOutcome.file (ExecOutcome.execFail code so2 se2 m2)
        localPath relativeTargetPath).1.message.isSome = true
    ∧ (uploaderUpload cfg StatOutcome.dir (ExecOutcome.execFail code so2 se2 m2)
        localPath relativeTargetPath).1.message.isSome = true := by
  refine ⟨rfl, rfl, rfl, ?_, ?_, rfl, rfl, rfl, rfl⟩
  · cases statO <;> cases eo <;> rfl
  · cases statO <;> cases eo <;> rfl

end QbCloudSync
